import Mathlib

set_option maxRecDepth 8192

/-!
Shallow embedding of the basecamp→fizzy migration tool.

JavaScript strings are modelled by `String` (ASCII inputs; `.length`,
`substring`, `toLowerCase`, `trim` agree with JS on ASCII), JS objects used
as string-keyed maps by association lists with first-key-wins lookup and
replace-or-append assignment (matching JS property semantics for the maps
this program builds), and JS truthiness by explicit helpers.
-/

/-- `obj[key]` on a string-keyed JS object: first matching key. -/
def jsGet {α : Type} : List (String × α) → String → Option α
  | [], _ => none
  | (k', v') :: rest, k => if k' = k then some v' else jsGet rest k

/-- `obj[key] = v`: replace the existing entry in place, else append. -/
def jsSet {α : Type} : List (String × α) → String → α → List (String × α)
  | [], k, v => [(k, v)]
  | (k', v') :: rest, k, v =>
      if k' = k then (k, v) :: rest else (k', v') :: jsSet rest k v

/-- JS truthiness of a possibly-undefined number (0 and undefined are falsy). -/
def jsTruthyNat : Option Nat → Bool
  | none => false
  | some n => n ≠ 0

/-- JS truthiness of a string (the empty string is falsy). -/
def jsTruthyStr (s : String) : Bool := !s.isEmpty

/-- JS truthiness of a possibly-undefined string. -/
def jsTruthyOptStr : Option String → Bool
  | none => false
  | some s => jsTruthyStr s

/-- JS `a || b` on possibly-undefined strings. -/
def jsOrStrOpt (a b : Option String) : Option String :=
  if jsTruthyOptStr a then a else b

/-- JS `s.substring(0, i)`. -/
def jsSubstrTo (s : String) (i : Nat) : String := String.mk (s.toList.take i)

/-- JS `s.substring(i)`. -/
def jsSubstrFrom (s : String) (i : Nat) : String := String.mk (s.toList.drop i)

/-- JS `s.toLowerCase()` (ASCII); list-based so the kernel can evaluate it. -/
def jsToLower (s : String) : String := String.mk (s.toList.map Char.toLower)

/-- JS `s.trim()` (ASCII whitespace); list-based so the kernel can
evaluate it. -/
def jsTrim (s : String) : String :=
  String.mk
    (List.reverse (List.dropWhile Char.isWhitespace
      (List.reverse (List.dropWhile Char.isWhitespace s.toList))))

/-- Match a literal character sequence at the front of a list, returning the
rest of the list on success. -/
def litMatch : List Char → List Char → Option (List Char)
  | [], cs => some cs
  | _ :: _, [] => none
  | p :: ps, c :: cs => if c = p then litMatch ps cs else none

/-- Does `sub` occur as a contiguous run anywhere in `l`? -/
def hasSub (l sub : List Char) : Bool :=
  match l with
  | [] => sub.isEmpty
  | _ :: rest => (litMatch sub l).isSome || hasSub rest sub

/-- JS `s.includes(sub)`. -/
def jsIncludes (s sub : String) : Bool := hasSub s.toList sub.toList

/-! ## src/mappers/status-mapper.js -/

def TRIAGE : String := "Kanban::Triage"
def NOT_NOW : String := "Kanban::NotNowColumn"
def DONE : String := "Kanban::DoneColumn"
def REGULAR : String := "Kanban::Column"

/-- The fixed 8-entry color lookup table `BASECAMP_TO_FIZZY_COLORS`
(`default` entry handled in `mapBasecampColorToFizzy`). -/
def basecampToFizzyColor (c : String) : Option String :=
  if c = "purple" then some "var(--color-card-7)"
  else if c = "orange" then some "var(--color-card-3)"
  else if c = "blue" then some "var(--color-card-default)"
  else if c = "gray" then some "var(--color-card-1)"
  else if c = "pink" then some "var(--color-card-8)"
  else if c = "yellow" then some "var(--color-card-2)"
  else if c = "green" then some "var(--color-card-4)"
  else if c = "red" then some "var(--color-card-5)"
  else none

/-- `mapBasecampColorToFizzy(basecampColor)`. -/
def mapBasecampColorToFizzy (basecampColor : Option String) : String :=
  if !(jsTruthyOptStr basecampColor) then "var(--color-card-default)"
  else
    match basecampToFizzyColor (jsToLower (basecampColor.getD "")) with
    | some fz => fz
    | none => "var(--color-card-default)"

/-- A `ColumnAction`: `{ type, target }`. -/
structure ColumnAction where
  type : String
  target : Option String
deriving DecidableEq, Repr

/-- `getColumnAction(columnType, columnId = null)`; the JS switch falls
through to the Regular/default branch for any unknown tag. -/
def getColumnAction (columnType : String) (columnId : Option String) : ColumnAction :=
  if columnType = TRIAGE then ⟨"keep_triage", none⟩
  else if columnType = NOT_NOW then ⟨"not_now", none⟩
  else if columnType = DONE then ⟨"close", none⟩
  else ⟨"triage_to_column", columnId⟩

/-- A Basecamp column as consumed by the column mapper. `ctype` stands for
the JS field `type`. -/
structure BColumn where
  id : Nat
  title : Option String
  name : Option String
  color : Option String
  ctype : Option String
deriving DecidableEq, Repr

/-- `detectColumnType(column)` (the `!column` guard is vacuous here:
columns are always objects). -/
def detectColumnType (c : BColumn) : String :=
  if jsTruthyOptStr c.ctype then c.ctype.getD ""
  else
    let nm := jsToLower ((jsOrStrOpt c.title c.name).getD "")
    if jsIncludes nm "triage" || jsIncludes nm "maybe" then TRIAGE
    else if jsIncludes nm "not now" || jsIncludes nm "later" then NOT_NOW
    else if jsIncludes nm "done" || jsIncludes nm "completed" then DONE
    else REGULAR

/-- `columnsMatch(basecampColumnName, fizzyColumnTitle)`. -/
def columnsMatch (a b : Option String) : Bool :=
  if !(jsTruthyOptStr a) || !(jsTruthyOptStr b) then false
  else jsTrim (jsToLower (a.getD "")) = jsTrim (jsToLower (b.getD ""))

/-! ## src/mappers/html-converter.js -/

/-- `convertBasecampToFizzyHTML(html)`: pass-through with trim; non-strings
and falsy values become the empty string. -/
def convertBasecampToFizzyHTML : Option String → String
  | none => ""
  | some s => if s.isEmpty then "" else jsTrim s

/-! ## src/mappers/card-mapper.js — data shapes -/

structure BPerson where
  id : Nat
  name : String
  email_address : String
deriving DecidableEq, Repr

structure BStep where
  content : Option String
  title : Option String
  completed : Bool
  assignee : Option BPerson
deriving DecidableEq, Repr

/-- A Basecamp card. `content` is the body HTML, `parentId` models
`card.parent?.id` (the owning column). -/
structure BCard where
  id : Nat
  title : String
  content : Option String
  parentId : Option Nat
  assignees : List BPerson
  steps : List BStep
  completed : Bool
  comments_count : Nat
deriving DecidableEq, Repr

/-- One persisted user mapping (user-mapper's `createMapping` shape). -/
structure UserMapping where
  basecamp_id : String
  basecamp_email : String
  basecamp_name : String
  fizzy_id : Option String
  fizzy_email : Option String
  fizzy_name : String
  mapped_at : String
deriving DecidableEq, Repr

structure UnmappedAssignee where
  id : Nat
  name : String
  email : String
deriving DecidableEq, Repr

structure FizzyStepPayload where
  title : Option String
  completed : Bool
  had_assignee : Option String
deriving DecidableEq, Repr

structure StepUnmappedAssignee where
  step_title : Option String
  assignee_id : Nat
  assignee_name : String
  assignee_email : String
deriving DecidableEq, Repr

/-- `mapAssignees(basecampAssignees, userMappings)`. -/
def mapAssignees (assignees : List BPerson) (userMappings : List (String × UserMapping)) :
    List String × List UnmappedAssignee :=
  match assignees with
  | [] => ([], [])
  | a :: rest =>
    let (m, u) := mapAssignees rest userMappings
    match jsGet userMappings (toString a.id) with
    | some mp =>
      if jsTruthyOptStr mp.fizzy_id then ((mp.fizzy_id.getD "") :: m, u)
      else (m, ⟨a.id, a.name, a.email_address⟩ :: u)
    | none => (m, ⟨a.id, a.name, a.email_address⟩ :: u)

/-- `mapSteps(basecampSteps, userMappings)`. -/
def mapSteps (steps : List BStep) (userMappings : List (String × UserMapping)) :
    List FizzyStepPayload × List StepUnmappedAssignee :=
  match steps with
  | [] => ([], [])
  | s :: rest =>
    let stepTitle := jsOrStrOpt s.content s.title
    let base : FizzyStepPayload := ⟨stepTitle, s.completed, none⟩
    let (fs, unm) :=
      match s.assignee with
      | none => (base, [])
      | some a =>
        match jsGet userMappings (toString a.id) with
        | some mp =>
          if jsTruthyOptStr mp.fizzy_id then
            ({ base with had_assignee := some mp.fizzy_name }, [])
          else (base, [⟨stepTitle, a.id, a.name, a.email_address⟩])
        | none => (base, [⟨stepTitle, a.id, a.name, a.email_address⟩])
    let (ms, us) := mapSteps rest userMappings
    (fs :: ms, unm ++ us)

/-! ## src/mappers/card-mapper.js — mapCard -/

def MAX_TITLE_LENGTH : Nat := 255

structure FizzyCardPayload where
  title : String
  description : String
  status : String
deriving DecidableEq, Repr

structure CardMeta where
  basecamp_id : Nat
  column_action : Option ColumnAction
  assignee_ids : List String
  unmapped_assignees : List UnmappedAssignee
  steps : List FizzyStepPayload
  unmapped_step_assignees : List StepUnmappedAssignee
  completed : Bool
  comments_count : Nat
deriving DecidableEq, Repr

structure MappedCard where
  card : FizzyCardPayload
  metadata : CardMeta
deriving DecidableEq, Repr

/-- `mapCard(basecampCard, context)`: description conversion, title
overflow into the body, and the trailing `#basecamp-id-<id>` marker. -/
def mapCard (basecampCard : BCard) (userMappings : List (String × UserMapping))
    (columnMappings : List (String × ColumnAction)) : MappedCard :=
  let description0 : String :=
    if jsTruthyOptStr basecampCard.content then
      convertBasecampToFizzyHTML basecampCard.content
    else ""
  let (assigneeIds, unmapped) := mapAssignees basecampCard.assignees userMappings
  let (steps, unmappedStepA) := mapSteps basecampCard.steps userMappings
  let columnAction : Option ColumnAction :=
    match basecampCard.parentId with
    | some pid => jsGet columnMappings (toString pid)
    | none => none
  let (title, description1) :=
    if MAX_TITLE_LENGTH < basecampCard.title.length then
      let truncatedPart := jsSubstrFrom basecampCard.title MAX_TITLE_LENGTH
      let title' := jsSubstrTo basecampCard.title MAX_TITLE_LENGTH
      if jsTruthyStr description0 then
        (title', truncatedPart ++ "\n\n---\n\n" ++ description0)
      else (title', truncatedPart)
    else (basecampCard.title, description0)
  let basecampMarker := "#basecamp-id-" ++ toString basecampCard.id
  let description2 :=
    if jsTruthyStr description1 then description1 ++ "\n\n" ++ basecampMarker
    else basecampMarker
  { card := ⟨title, description2, "published"⟩
  , metadata :=
      ⟨basecampCard.id, columnAction, assigneeIds, unmapped, steps,
       unmappedStepA, basecampCard.completed, basecampCard.comments_count⟩ }

/-! ## The `#basecamp-id-<digits>` marker regex

`card-mapper.js`'s `extractBasecampId` and `migration.js`'s
`findExistingMigratedCards` both run `description.match(/#basecamp-id-(\d+)/)`:
the leftmost occurrence of the literal `#basecamp-id-` followed by at least
one digit wins, and the capture is the maximal digit run at that spot. -/

def markerChars : List Char := "#basecamp-id-".toList

/-- Try the regex at the head of the list: the literal, then ≥ 1 digit,
capturing the maximal digit run. -/
def markerMatchAt (cs : List Char) : Option (List Char) :=
  match litMatch markerChars cs with
  | none => none
  | some rest =>
    let ds := rest.takeWhile (fun c => c.isDigit)
    if ds.isEmpty then none else some ds

/-- Leftmost match of `/#basecamp-id-(\d+)/`, returning the captured digits. -/
def findMarker : List Char → Option (List Char)
  | [] => none
  | c :: cs =>
    match markerMatchAt (c :: cs) with
    | some ds => some ds
    | none => findMarker cs

/-- `extractBasecampId(description)` from `card-mapper.js`. -/
def extractBasecampId (description : String) : Option String :=
  if !(jsTruthyStr description) then none
  else (findMarker description.toList).map fun ds => String.mk ds

/-! ## Duplicate Scanner (`findExistingMigratedCards`, migration.js) -/

/-- A destination card as returned by the board-wide card fetch. -/
structure ScanCard where
  description : Option String
  number : Nat
deriving DecidableEq, Repr

/-- One iteration of the scanner's loop: if the description is truthy and
matches the marker regex, record `basecampId → card.number`. -/
def scanCardStep (m : List (String × Nat)) (c : ScanCard) : List (String × Nat) :=
  match c.description with
  | none => m
  | some d =>
    if !(jsTruthyStr d) then m
    else
      match findMarker d.toList with
      | some ds => jsSet m (String.mk ds) c.number
      | none => m

/-- `findExistingMigratedCards`: scan all fetched cards; a failed fetch
degrades to the empty map (the catch branch only logs a warning). -/
def findExistingMigratedCards (fetched : Except String (List ScanCard)) :
    List (String × Nat) :=
  match fetched with
  | .error _ => []
  | .ok cards => cards.foldl scanCardStep []

/-! ## Errors and the retry wrapper (rate-limiter.js, clients) -/

/-- What `withRetry` reads off `error.response`: `.status` and the parsed
`retry-after` header. Either field may be absent (`undefined`). -/
structure RespInfo where
  status : Option Nat
  retryAfter : Option Nat
deriving DecidableEq, Repr

/-- A thrown JS error as classified by `withRetry`: `error.response` may be
absent/falsy, and carries `RespInfo` when truthy. -/
structure JsError where
  message : String
  response : Option RespInfo
deriving DecidableEq, Repr

/-- The JSON body of an HTTP error response, as far as `withRetry` could
observe it after interceptor wrapping: its truthiness, its `status` field if
any, and a `retry-after` entry if any (real bodies have neither). -/
structure HttpBody where
  isTruthy : Bool
  statusField : Option Nat
  retryAfterField : Option Nat
deriving DecidableEq, Repr

/-- A raw axios failure: optional HTTP response with status code, optional
`retry-after` header, and the response body. -/
structure AxiosFailure where
  message : String
  response : Option (Nat × Option Nat × HttpBody)
deriving DecidableEq, Repr

/-- A raw axios error as seen by `withRetry` when no interceptor rewraps it:
`error.response.status` is the HTTP status code. -/
def axiosJsError (e : AxiosFailure) : JsError :=
  { message := e.message
  , response := e.response.map fun (st, ra, _) => ⟨some st, ra⟩ }

/-- The clients' response interceptors replace the axios error with
`new ApiError(error.message, error.response?.status, error.response?.data)`
(`basecamp-client.js` outside the 401-refresh path, `fizzy-client.js`
always). `ApiError` stores the status in `.statusCode` and the *body* in
`.response`, so the error `withRetry` later inspects exposes the body — not
the HTTP response — as `error.response`. -/
def apiErrorOfAxios (e : AxiosFailure) : JsError :=
  { message := e.message
  , response :=
      match e.response with
      | none => none
      | some (_, _, body) =>
        if body.isTruthy then some ⟨body.statusField, body.retryAfterField⟩
        else none }

/-- The trace of one `withRetry` run: final outcome, how many times the
wrapped function was invoked, and the sleeps performed (ms). -/
structure RetryTrace (α : Type) where
  result : Except JsError α
  calls : Nat
  sleeps : List Nat
deriving Repr

/-- The `for (attempt = 1; attempt <= maxRetries; attempt++)` loop of
`withRetry`. `fuel` only drives the recursion; it never runs out when
called with `fuel = maxRetries` and `attempt = 1` (the loop recurses only
while `attempt < maxRetries`). The wrapped function is indexed by the
attempt number so distinct attempts may behave differently. -/
def withRetryGo {α : Type} (fn : Nat → Except JsError α)
    (maxRetries baseDelay maxDelay : Nat) (attempt : Nat) :
    Nat → RetryTrace α
  | 0 => ⟨.error ⟨"unreachable", none⟩, 0, []⟩
  | fuel + 1 =>
    match fn attempt with
    | .ok a => ⟨.ok a, 1, []⟩
    | .error e =>
      match e.response with
      | some resp =>
        match resp.status with
        | some status =>
          if 400 ≤ status ∧ status < 500 ∧ status ≠ 429 then
            -- don't retry 4xx errors except 429: rethrow at once
            ⟨.error e, 1, []⟩
          else if status = 429 then
            -- honor retry-after (default 5 s) against the budget
            let delayMs := (resp.retryAfter.getD 5) * 1000
            if attempt < maxRetries then
              let r := withRetryGo fn maxRetries baseDelay maxDelay (attempt + 1) fuel
              ⟨r.result, r.calls + 1, delayMs :: r.sleeps⟩
            else ⟨.error e, 1, []⟩
          else
            -- exponential backoff for everything else
            if attempt = maxRetries then ⟨.error e, 1, []⟩
            else
              let delay := min (baseDelay * 2 ^ (attempt - 1)) maxDelay
              let r := withRetryGo fn maxRetries baseDelay maxDelay (attempt + 1) fuel
              ⟨r.result, r.calls + 1, delay :: r.sleeps⟩
        | none =>
          if attempt = maxRetries then ⟨.error e, 1, []⟩
          else
            let delay := min (baseDelay * 2 ^ (attempt - 1)) maxDelay
            let r := withRetryGo fn maxRetries baseDelay maxDelay (attempt + 1) fuel
            ⟨r.result, r.calls + 1, delay :: r.sleeps⟩
      | none =>
        if attempt = maxRetries then ⟨.error e, 1, []⟩
        else
          let delay := min (baseDelay * 2 ^ (attempt - 1)) maxDelay
          let r := withRetryGo fn maxRetries baseDelay maxDelay (attempt + 1) fuel
          ⟨r.result, r.calls + 1, delay :: r.sleeps⟩

/-- `withRetry(fn)` with the default options
`maxRetries = 3, baseDelay = 1000, maxDelay = 30000` (every call site in the
repository uses the defaults). -/
def withRetry {α : Type} (fn : Nat → Except JsError α) : RetryTrace α :=
  withRetryGo fn 3 1000 30000 1 3

/-! ## RateLimiter (rate-limiter.js)

The source keeps `tokens` as a float and computes
`tokensToAdd = (now - lastRefill) / 1000 * refillRate` with `Date.now()`
millisecond timestamps. The configured rate (`requestsPerSecond`) is always
an integer (`parseInt` of configuration, default 5), so all reachable token
values are integer multiples of 1/1000. We therefore store tokens scaled by
1000 ("milli-tokens") in ℤ, which makes the arithmetic exact:
`tokens += (now - lastRefill) * rate`, capacity `1000 * rate`, and one
acquire needs `1000` milli-tokens. -/

/-- Limiter state: `rps` is `requestsPerSecond` (= `maxTokens` =
`refillRate` in the constructor); `tokens` is scaled by 1000; `lastRefill`
is a millisecond timestamp. -/
structure RateLimiterState where
  rps : Nat
  tokens : Int
  lastRefill : Int
deriving DecidableEq, Repr

/-- `new RateLimiter(requestsPerSecond)` at wall-clock time `now`:
a full bucket. -/
def initRateLimiter (rps : Nat) (now : Int) : RateLimiterState :=
  ⟨rps, 1000 * rps, now⟩

/-- `refill()` at time `now` (scaled by 1000). -/
def refill (st : RateLimiterState) (now : Int) : RateLimiterState :=
  { st with
    tokens := min (1000 * (st.rps : Int)) (st.tokens + (now - st.lastRefill) * st.rps)
    lastRefill := now }

/-- One `acquire()` completing at time `now`: the waiting loop exits once a
refill leaves at least one token, then one token is consumed. `none` means
an acquire could not complete at this instant. -/
def acquireAt (st : RateLimiterState) (now : Int) : Option RateLimiterState :=
  let st' := refill st now
  if 1000 ≤ st'.tokens then some { st' with tokens := st'.tokens - 1000 }
  else none

/-- A sequence of successful acquire completions at the given times. -/
def runAcquires (st : RateLimiterState) : List Int → Option RateLimiterState
  | [] => some st
  | t :: ts =>
    match acquireAt st t with
    | some st' => runAcquires st' ts
    | none => none

/-! ## src/state/migration-state.js -/

structure Progress where
  processed_cards : Nat
  successful_cards : Nat
  failed_cards : Nat
  skipped_cards : Nat
  current_phase : String
deriving DecidableEq, Repr

structure MetaCounters where
  comments_migrated : Nat
  steps_migrated : Nat
  columns_created : Nat
  users_mapped : Nat
deriving DecidableEq, Repr

/-- One entry of `failed_items` (`addFailedItem`). `basecamp_id` models
`item.id || item.basecamp_id` (`none` when falsy), `title` models
`item.title || item.name || 'Unknown'`. -/
structure FailedItem where
  type : String
  basecamp_id : Option Nat
  title : String
  error : String
  timestamp : String
deriving DecidableEq, Repr

/-- One entry of `warnings` (`addWarning`); `context` summarizes the small
context object (an error message or a card id) as a string. -/
structure Warning where
  message : String
  context : String
  timestamp : String
deriving DecidableEq, Repr

/-- The mutable migration-run state, restricted to the fields the phases
under verification read or write (identifiers, descriptors and option
mirrors carried only for display are omitted). -/
structure MigrationState where
  status : String
  completed_at : Option String
  progress : Progress
  metadata : MetaCounters
  user_mappings : List (String × UserMapping)
  column_mappings : List (String × ColumnAction)
  existing_cards : List (String × Nat)
  failed_items : List FailedItem
  warnings : List Warning
deriving DecidableEq, Repr

/-- The fresh progress/metadata counters of `createMigrationState`. -/
def initialProgress : Progress := ⟨0, 0, 0, 0, "initialization"⟩

def initialMetaCounters : MetaCounters := ⟨0, 0, 0, 0⟩

/-- `completeMigration(migration, status)` at wall-clock time `now`. -/
def completeMigration (m : MigrationState) (status : String) (now : String) :
    MigrationState :=
  { m with
    status := status
    completed_at := some now
    progress := { m.progress with current_phase := "completed" } }

/-- The `FailedItem` recorded by `addFailedItem(migration, type, card, error)`. -/
def mkFailedItem (type : String) (card : BCard) (errMsg : String) (now : String) :
    FailedItem :=
  ⟨type
  , if card.id ≠ 0 then some card.id else none
  , if jsTruthyStr card.title then card.title else "Unknown"
  , errMsg, now⟩

/-- `addFailedItem(migration, type, item, error)` at time `now`. -/
def addFailedItem (m : MigrationState) (type : String) (card : BCard)
    (errMsg : String) (now : String) : MigrationState :=
  { m with failed_items := m.failed_items ++ [mkFailedItem type card errMsg now] }

/-- `addWarning(migration, message, context)` at time `now`. -/
def addWarning (m : MigrationState) (message context now : String) : MigrationState :=
  { m with warnings := m.warnings ++ [⟨message, context, now⟩] }

/-! ## Orchestrator (src/services/migration.js) -/

/-- The options destructured by `phase4_cards`/`migrateCard`. -/
structure MigrateOptions where
  migrateComments : Bool
  updateExisting : Bool
  dryRun : Bool
deriving DecidableEq, Repr

/-- A Basecamp comment (`getComments` element). -/
structure BComment where
  content : Option String
  creator : Option BPerson
  created_at : String
deriving DecidableEq, Repr

/-- `mapComment(basecampComment, userMappings)`; `fmtDate` stands for
`new Date(created_at).toLocaleDateString()`. Only the body is consumed by
the caller (`createComment({ body })`). -/
def mapComment (fmtDate : String → String) (c : BComment)
    (userMappings : List (String × UserMapping)) : String :=
  let body :=
    if jsTruthyOptStr c.content then convertBasecampToFizzyHTML c.content else ""
  match c.creator with
  | none => body
  | some creator =>
    match jsGet userMappings (toString creator.id) with
    | some mp =>
      if jsTruthyOptStr mp.fizzy_id then body
      else
        "_Original comment by " ++ creator.name ++ " on " ++
          fmtDate c.created_at ++ "_\n\n" ++ body
    | none =>
      "_Original comment by " ++ creator.name ++ " on " ++
        fmtDate c.created_at ++ "_\n\n" ++ body

/-- The destination card materialized after `createCard` (only its `number`
is consumed downstream). -/
structure CreatedCard where
  number : Nat
deriving DecidableEq, Repr

/-- Tags naming each remote call `migrateCard` can issue, in order. -/
inductive FizzyCall where
  | create
  | triage (target : String)
  | close
  | notNow
  | assign (uid : String)
  | step
  | fetchComments
  | comment
deriving DecidableEq, Repr

/-- The remote environment for one `migrateCard`: every Fizzy/Basecamp call
it can issue either succeeds with a value or throws a `JsError`. -/
structure MigrationEnv where
  createCard : FizzyCardPayload → Except JsError CreatedCard
  triageCard : Nat → String → Except JsError Unit
  closeCard : Nat → Except JsError Unit
  notNowCard : Nat → Except JsError Unit
  assignUser : Nat → String → Except JsError Unit
  createStep : Nat → FizzyStepPayload → Except JsError Unit
  getComments : Nat → Except JsError (List BComment)
  createComment : Nat → String → Except JsError Unit
  fmtDate : String → String

/-- `placeCardInColumn(fizzyClient, fizzyCard, columnAction, target)`:
returns the thrown error, if any, and the calls issued. -/
def placeCardInColumn (env : MigrationEnv) (cardNumber : Nat) :
    Option ColumnAction → Option JsError × List FizzyCall
  | none => (none, [])
  | some a =>
    if a.type = "keep_triage" then (none, [])
    else if a.type = "not_now" then
      match env.notNowCard cardNumber with
      | .ok _ => (none, [.notNow])
      | .error e => (some e, [.notNow])
    else if a.type = "close" then
      match env.closeCard cardNumber with
      | .ok _ => (none, [.close])
      | .error e => (some e, [.close])
    else if a.type = "triage_to_column" then
      match a.target with
      | some tid =>
        if jsTruthyStr tid then
          match env.triageCard cardNumber tid with
          | .ok _ => (none, [.triage tid])
          | .error e => (some e, [.triage tid])
        else (none, [])
      | none => (none, [])
    else (none, [])

/-- The user-assignment loop of `migrateCard`: each failure is downgraded to
a warning and the loop continues. -/
def assignLoop (env : MigrationEnv) (cardNumber : Nat) (now : String) :
    List String → MigrationState → MigrationState × List FizzyCall
  | [], st => (st, [])
  | uid :: rest, st =>
    let st' :=
      match env.assignUser cardNumber uid with
      | .ok _ => st
      | .error e =>
        addWarning st
          ("Failed to assign user " ++ uid ++ " to card " ++ toString cardNumber)
          e.message now
    let (st'', calls) := assignLoop env cardNumber now rest st'
    (st'', .assign uid :: calls)

/-- The step-creation loop of `migrateCard`: successes bump
`steps_migrated`, failures become warnings. -/
def stepsLoop (env : MigrationEnv) (cardNumber : Nat) (now : String) :
    List FizzyStepPayload → MigrationState → MigrationState × List FizzyCall
  | [], st => (st, [])
  | s :: rest, st =>
    let st' :=
      match env.createStep cardNumber s with
      | .ok _ =>
        { st with metadata :=
            { st.metadata with steps_migrated := st.metadata.steps_migrated + 1 } }
      | .error e =>
        addWarning st ("Failed to create step for card " ++ toString cardNumber)
          e.message now
    let (st'', calls) := stepsLoop env cardNumber now rest st'
    (st'', .step :: calls)

/-- The comment loop inside `migrateComments_forCard`. -/
def commentsLoop (env : MigrationEnv) (cardNumber : Nat) (now : String)
    (userMappings : List (String × UserMapping)) :
    List BComment → MigrationState → MigrationState × List FizzyCall
  | [], st => (st, [])
  | c :: rest, st =>
    let body := mapComment env.fmtDate c userMappings
    let st' :=
      match env.createComment cardNumber body with
      | .ok _ =>
        { st with metadata :=
            { st.metadata with
              comments_migrated := st.metadata.comments_migrated + 1 } }
      | .error e =>
        addWarning st ("Failed to migrate comment for card " ++ toString cardNumber)
          e.message now
    let (st'', calls) := commentsLoop env cardNumber now userMappings rest st'
    (st'', .comment :: calls)

/-- `migrateComments_forCard`: a failed comment fetch degrades to a warning. -/
def migrateCommentsForCard (env : MigrationEnv) (card : BCard) (cardNumber : Nat)
    (now : String) (st : MigrationState) : MigrationState × List FizzyCall :=
  match env.getComments card.id with
  | .error e =>
    (addWarning st ("Failed to fetch comments for card " ++ toString card.id)
      e.message now, [.fetchComments])
  | .ok comments =>
    let (st', calls) := commentsLoop env cardNumber now st.user_mappings comments st
    (st', .fetchComments :: calls)

/-- The unmapped-assignee warning loop at the end of `migrateCard`. -/
def unmappedWarnLoop (cardId : Nat) (now : String) :
    List UnmappedAssignee → MigrationState → MigrationState
  | [], st => st
  | a :: rest, st =>
    unmappedWarnLoop cardId now rest
      (addWarning st ("Unmapped assignee: " ++ a.name ++ " (" ++ a.email ++ ")")
        (toString cardId) now)

/-- The tail of `migrateCard` after the destination card has been created
and recorded in `existing_cards`: placement, assignment, steps, closing,
optional comments, unmapped-assignee warnings. Errors from placement and
from `closeCard` propagate; the loops downgrade theirs to warnings. -/
def migrateCardRest (env : MigrationEnv) (opts : MigrateOptions) (card : BCard)
    (mapped : MappedCard) (fizzyCard : CreatedCard) (now : String)
    (st : MigrationState) : Option JsError × MigrationState × List FizzyCall :=
  let (perr, pcalls) :=
    placeCardInColumn env fizzyCard.number mapped.metadata.column_action
  match perr with
  | some e => (some e, st, pcalls)
  | none =>
    let (st, acalls) :=
      assignLoop env fizzyCard.number now mapped.metadata.assignee_ids st
    let (st, scalls) := stepsLoop env fizzyCard.number now mapped.metadata.steps st
    let closeRes :=
      if mapped.metadata.completed then
        match env.closeCard fizzyCard.number with
        | .ok _ => (none, [FizzyCall.close])
        | .error e => (some e, [FizzyCall.close])
      else ((none : Option JsError), ([] : List FizzyCall))
    match closeRes with
    | (some e, ccalls) => (some e, st, pcalls ++ acalls ++ scalls ++ ccalls)
    | (none, ccalls) =>
      let (st, mcalls) :=
        if opts.migrateComments ∧ 0 < mapped.metadata.comments_count then
          migrateCommentsForCard env card fizzyCard.number now st
        else (st, [])
      let st := unmappedWarnLoop card.id now mapped.metadata.unmapped_assignees st
      (none, st, pcalls ++ acalls ++ scalls ++ ccalls ++ mcalls)

/-- `migrateCard(card, …, migration, …, options)`: returns the thrown error
(if any), the migration state as mutated up to that point (JS mutates the
shared object in place, so partial effects survive a throw), and the remote
calls issued. -/
def migrateCard (env : MigrationEnv) (opts : MigrateOptions) (st : MigrationState)
    (card : BCard) (now : String) : Option JsError × MigrationState × List FizzyCall :=
  let basecampId := toString card.id
  if jsTruthyNat (jsGet st.existing_cards basecampId) && !opts.updateExisting then
    (none,
     { st with progress :=
        { st.progress with skipped_cards := st.progress.skipped_cards + 1 } },
     [])
  else if opts.dryRun then (none, st, [])
  else
    let mapped := mapCard card st.user_mappings st.column_mappings
    match env.createCard mapped.card with
    | .error e => (some e, st, [.create])
    | .ok fizzyCard =>
      -- store in migration state before any follow-up call
      let st :=
        { st with
          existing_cards := jsSet st.existing_cards basecampId fizzyCard.number }
      let (err, st, calls) := migrateCardRest env opts card mapped fizzyCard now st
      (err, st, .create :: calls)

/-- The per-card body of `phase4_cards`' loop: run `migrateCard` under
try/catch, bump the success or failure counters, and set
`processed_cards` from the phase-local counter. -/
def processCard (env : MigrationEnv) (opts : MigrateOptions) (now : String)
    (acc : MigrationState × Nat) (card : BCard) : MigrationState × Nat :=
  let (st, processedCount) := acc
  let (err, st, _) := migrateCard env opts st card now
  let st :=
    match err with
    | none =>
      { st with progress :=
          { st.progress with successful_cards := st.progress.successful_cards + 1 } }
    | some e =>
      addFailedItem
        { st with progress :=
            { st.progress with failed_cards := st.progress.failed_cards + 1 } }
        "card" card e.message now
  ({ st with progress :=
      { st.progress with processed_cards := processedCount + 1 } },
   processedCount + 1)

/-- The cards of one source column, processed in order. The JS slices the
list into groups of `batchSize` only to checkpoint (`saveMigrationState`)
between groups; grouping preserves the iteration order and persistence does
not change the in-memory state, so the fold is over the plain list. -/
def processCards (env : MigrationEnv) (opts : MigrateOptions) (now : String)
    (cards : List BCard) (acc : MigrationState × Nat) : MigrationState × Nat :=
  cards.foldl (processCard env opts now) acc

/-- `phase4_cards`: install the Duplicate Scanner's result, then process
every column's cards with a phase-global processed counter. -/
def phase4_cards (env : MigrationEnv) (opts : MigrateOptions) (now : String)
    (scanResult : List (String × Nat)) (columns : List (List BCard))
    (st : MigrationState) : MigrationState :=
  let st := { st with existing_cards := scanResult }
  (columns.foldl (fun acc cards => processCards env opts now cards acc) (st, 0)).1

/-- `phase5_finalize(migration)` at time `now`. -/
def phase5_finalize (m : MigrationState) (now : String) : MigrationState :=
  let hasFailures := 0 < m.progress.failed_cards
  let status := if hasFailures then "partial" else "completed"
  completeMigration m status now

/-! ## Column Mapper (src/services/column-mapper.js) -/

/-- A Fizzy column (existing, newly created, or dry-run placeholder). -/
structure FizzyColumn where
  id : String
  name : Option String
  title : Option String
deriving DecidableEq, Repr

/-- The payload of `fizzyClient.createColumn`. -/
structure ColumnPayload where
  name : Option String
  color : String
deriving DecidableEq, Repr

/-- `findMatchingColumn(columnName, fizzyColumns)`. -/
def findMatchingColumn (columnName : Option String) (fizzyColumns : List FizzyColumn) :
    Option FizzyColumn :=
  fizzyColumns.find? fun fz => columnsMatch columnName (jsOrStrOpt fz.name fz.title)

structure ColumnActionReport where
  basecamp_id : Nat
  basecamp_name : Option String
  fizzy_column_id : Option String
  fizzy_column_title : Option String
  action : ColumnAction
deriving DecidableEq, Repr

structure MapColumnsResult where
  mappings : List (String × ColumnAction)
  actions : List ColumnActionReport
  created : List FizzyColumn
deriving Repr

/-- The loop body of `mapColumns`, one Basecamp column at a time.
`createCol` is `fizzyClient.createColumn` for the target board; a creation
failure is rethrown (fatal for the run). -/
def mapColumnsGo (createCol : ColumnPayload → Except JsError FizzyColumn)
    (fizzyColumns : List FizzyColumn) (dryRun : Bool) :
    List BColumn → MapColumnsResult → Except JsError MapColumnsResult
  | [], acc => .ok acc
  | bcColumn :: rest, acc =>
    let columnType := detectColumnType bcColumn
    let columnName := jsOrStrOpt bcColumn.title bcColumn.name
    let columnId := bcColumn.id
    if columnType = TRIAGE ∨ columnType = NOT_NOW ∨ columnType = DONE then
      let action := getColumnAction columnType none
      mapColumnsGo createCol fizzyColumns dryRun rest
        { acc with
          mappings := jsSet acc.mappings (toString columnId) action
          actions := acc.actions ++ [⟨columnId, columnName, none, none, action⟩] }
    else
      let step :=
        fun (fizzyColumn : FizzyColumn) (created' : List FizzyColumn) =>
          let action := getColumnAction REGULAR (some fizzyColumn.id)
          mapColumnsGo createCol fizzyColumns dryRun rest
            { mappings := jsSet acc.mappings (toString columnId) action
              actions := acc.actions ++
                [⟨columnId, columnName, some fizzyColumn.id,
                  jsOrStrOpt fizzyColumn.name fizzyColumn.title, action⟩]
              created := created' }
      match findMatchingColumn columnName fizzyColumns with
      | some fizzyColumn => step fizzyColumn acc.created
      | none =>
        if dryRun then
          step ⟨"dry-run-" ++ toString columnId, columnName, none⟩ acc.created
        else
          match createCol ⟨columnName, mapBasecampColorToFizzy bcColumn.color⟩ with
          | .error e => .error e
          | .ok fizzyColumn => step fizzyColumn (acc.created ++ [fizzyColumn])

/-- `mapColumns(basecampColumns, fizzyColumns, fizzyClient, …, { dryRun })`. -/
def mapColumns (createCol : ColumnPayload → Except JsError FizzyColumn)
    (basecampColumns : List BColumn) (fizzyColumns : List FizzyColumn)
    (dryRun : Bool) : Except JsError MapColumnsResult :=
  mapColumnsGo createCol fizzyColumns dryRun basecampColumns ⟨[], [], []⟩

/-! # Theorems -/

/-- Claim C5: a run reaching Finalization persists status `partial` exactly
when `failed_cards > 0` and `completed` otherwise, and `completed_at` is set
to a non-null timestamp in both cases. -/
theorem claim_C5_finalize_status (m : MigrationState) (now : String) :
    ((phase5_finalize m now).status = "partial" ↔ 0 < m.progress.failed_cards) ∧
    ((phase5_finalize m now).status = "completed" ↔ ¬ 0 < m.progress.failed_cards) ∧
    (phase5_finalize m now).completed_at = some now := by
  unfold phase5_finalize completeMigration
  by_cases h : 0 < m.progress.failed_cards <;> simp [h]

/-- A 404 failure whose response carries a truthy JSON body with no `status`
field (the shape of any real 4xx response body). -/
def c4Failure : AxiosFailure :=
  ⟨"Request failed with status code 404", some (404, none, ⟨true, none, none⟩)⟩

/-- Claim C4 (refuted): `withRetry` does propagate a *raw* 4xx axios error
immediately (one invocation, no sleeps), but both clients' response
interceptors rewrap failures as `ApiError`, whose `.response` field holds
the response *body*; the wrapped error reaches `withRetry` without
`response.status`, so a 404 is retried three times with exponential backoff
(sleeps of 1000 ms and 2000 ms) instead of propagating immediately. -/
theorem claim_C4_wrapped_4xx :
    ((withRetry fun _ => (.error (axiosJsError c4Failure) : Except JsError Unit)).calls = 1 ∧
     (withRetry fun _ => (.error (axiosJsError c4Failure) : Except JsError Unit)).sleeps = []) ∧
    ((withRetry fun _ => (.error (apiErrorOfAxios c4Failure) : Except JsError Unit)).calls = 3 ∧
     (withRetry fun _ => (.error (apiErrorOfAxios c4Failure) : Except JsError Unit)).sleeps = [1000, 2000]) := by
  refine ⟨⟨rfl, rfl⟩, rfl, rfl⟩

/-- An environment in which every remote call fails (the calls are never
reached in the scenarios that use it). -/
def failEnv : MigrationEnv :=
  { createCard := fun _ => .error ⟨"unavailable", none⟩
  , triageCard := fun _ _ => .error ⟨"unavailable", none⟩
  , closeCard := fun _ => .error ⟨"unavailable", none⟩
  , notNowCard := fun _ => .error ⟨"unavailable", none⟩
  , assignUser := fun _ _ => .error ⟨"unavailable", none⟩
  , createStep := fun _ _ => .error ⟨"unavailable", none⟩
  , getComments := fun _ => .error ⟨"unavailable", none⟩
  , createComment := fun _ _ => .error ⟨"unavailable", none⟩
  , fmtDate := fun s => s }

/-- A fresh in-progress migration state with the given prior mappings. -/
def freshState : MigrationState :=
  ⟨"in_progress", none, initialProgress, initialMetaCounters, [], [], [], [], []⟩

/-- The clean-run scenario's five source records. -/
def c1Cards : List BCard :=
  [⟨1, "Card one", none, none, [], [], false, 0⟩,
   ⟨2, "Card two", none, none, [], [], false, 0⟩,
   ⟨3, "Card three", none, none, [], [], false, 0⟩,
   ⟨4, "Card four", none, none, [], [], false, 0⟩,
   ⟨5, "Card five", none, none, [], [], false, 0⟩]

/-- The Duplicate Scanner's result when all five records were already
migrated to destination cards 101–105. -/
def c1Scan : List (String × Nat) :=
  [("1", 101), ("2", 102), ("3", 103), ("4", 104), ("5", 105)]

/-- Claim C1 (refuted; code bug): re-running the clean-run scenario with
every record already in `existing_records` and "update existing" off does
increment `skipped_cards` for all 5 records, but `phase4_cards` increments
`successful_cards` after *every* `migrateCard` that does not throw — the
skip path returns normally — so the counters end at 5 skipped AND 5
successful, not 0 successful as the spec states. -/
theorem claim_C1_rerun_counts :
    (phase4_cards failEnv ⟨false, false, false⟩ "t0" c1Scan [c1Cards]
        freshState).progress.skipped_cards = 5 ∧
    (phase4_cards failEnv ⟨false, false, false⟩ "t0" c1Scan [c1Cards]
        freshState).progress.successful_cards = 5 ∧
    (phase4_cards failEnv ⟨false, false, false⟩ "t0" c1Scan [c1Cards]
        freshState).progress.failed_cards = 0 ∧
    (phase4_cards failEnv ⟨false, false, false⟩ "t0" c1Scan [c1Cards]
        freshState).progress.processed_cards = 5 := by
  refine ⟨rfl, rfl, rfl, rfl⟩

/-! ## String helper lemmas -/

theorem jsTruthyStr_of_ne {s : String} (h : s ≠ "") : jsTruthyStr s = true := by
  unfold jsTruthyStr
  cases heq : s.isEmpty
  · rfl
  · exact absurd ((String.isEmpty_iff s).mp heq) h

theorem strAppend_ne_empty_right (a b : String) (h : b ≠ "") : a ++ b ≠ "" := by
  intro hc
  apply h
  have hd : (a ++ b).data = [] := congrArg String.data hc
  rw [String.data_append] at hd
  exact String.ext (List.append_eq_nil.mp hd).2

theorem jsSubstrFrom_ne_empty {s : String} {i : Nat} (h : i < s.length) :
    jsSubstrFrom s i ≠ "" := by
  unfold jsSubstrFrom
  intro hc
  have hd : (s.toList.drop i) = [] := congrArg String.data hc
  rw [List.drop_eq_nil_iff] at hd
  exact absurd hd (by exact Nat.not_le_of_lt h)

/-- The 300-character title of the overflow scenario. -/
def c2Title : String := String.mk (List.replicate 300 'a')

/-- An overflow-title record with an empty body. -/
def c2Card : BCard := ⟨7, c2Title, none, none, [], [], false, 0⟩

/-- Claim C2 (counterexample): for a record whose title has length 300 but
whose body is empty, `mapCard` emits no divider at all — the description is
the 45-character remainder followed directly by the blank line and marker —
so the claimed layout "remainder, divider, original body, marker" fails. -/
theorem claim_C2_counterexample :
    255 < c2Card.title.length ∧
    (mapCard c2Card [] []).card.description =
      String.mk (List.replicate 45 'a') ++ "\n\n#basecamp-id-7" ∧
    jsIncludes (mapCard c2Card [] []).card.description "---" = false := by
  refine ⟨by decide, by decide, by decide⟩

/-- Claim C2 (amended): for every source record whose title exceeds 255
characters *and whose converted body is nonempty*, the destination title is
the first 255 characters of the source title and the destination body is
the remaining characters, the divider, the converted body, a blank line and
the `#basecamp-id-<id>` marker. (When the body is empty the divider is
omitted, as the counterexample shows; and the body segment is the
HTML-converted — trimmed — source body.) -/
theorem claim_C2_title_overflow (card : BCard)
    (um : List (String × UserMapping)) (cm : List (String × ColumnAction))
    (hlen : MAX_TITLE_LENGTH < card.title.length)
    (hbody : (if jsTruthyOptStr card.content then
                convertBasecampToFizzyHTML card.content else "") ≠ "") :
    (mapCard card um cm).card.title = jsSubstrTo card.title MAX_TITLE_LENGTH ∧
    (mapCard card um cm).card.description =
      jsSubstrFrom card.title MAX_TITLE_LENGTH ++ "\n\n---\n\n" ++
        (if jsTruthyOptStr card.content then
           convertBasecampToFizzyHTML card.content else "") ++
        "\n\n" ++ ("#basecamp-id-" ++ toString card.id) := by
  have hT : jsTruthyStr (if jsTruthyOptStr card.content then
      convertBasecampToFizzyHTML card.content else "") = true :=
    jsTruthyStr_of_ne hbody
  have hT2 : jsTruthyStr
      (jsSubstrFrom card.title MAX_TITLE_LENGTH ++ "\n\n---\n\n" ++
        (if jsTruthyOptStr card.content then
           convertBasecampToFizzyHTML card.content else "")) = true :=
    jsTruthyStr_of_ne (strAppend_ne_empty_right _ _ hbody)
  unfold mapCard
  simp only [if_pos hlen, hT, hT2, if_true]
  exact ⟨trivial, trivial⟩

/-- An overflow-title record with a nonempty body, for the C2 witness. -/
def c2CardB : BCard := ⟨8, c2Title, some "hello", none, [], [], false, 0⟩

theorem claim_C2_witness :
    MAX_TITLE_LENGTH < c2CardB.title.length ∧
    ((mapCard c2CardB [] []).card.title = jsSubstrTo c2CardB.title MAX_TITLE_LENGTH ∧
     (mapCard c2CardB [] []).card.description =
       jsSubstrFrom c2CardB.title MAX_TITLE_LENGTH ++ "\n\n---\n\n" ++
         (if jsTruthyOptStr c2CardB.content then
            convertBasecampToFizzyHTML c2CardB.content else "") ++
         "\n\n" ++ ("#basecamp-id-" ++ toString c2CardB.id)) :=
  ⟨by decide, claim_C2_title_overflow c2CardB [] [] (by decide) (by decide)⟩

/-! ## Marker extraction lemmas (C3) -/

theorem litMatch_append_some {lit cs r : List Char} (ds : List Char)
    (h : litMatch lit cs = some r) : litMatch lit (cs ++ ds) = some (r ++ ds) := by
  induction lit generalizing cs r with
  | nil =>
    simp only [litMatch] at h ⊢
    cases h
    rfl
  | cons p ps ih =>
    cases cs with
    | nil => simp [litMatch] at h
    | cons c cs' =>
      simp only [litMatch, List.cons_append] at h ⊢
      by_cases hc : c = p
      · rw [if_pos hc] at h ⊢
        exact ih h
      · rw [if_neg hc] at h
        cases h

theorem litMatch_append_none {lit cs : List Char} {d : Char} (ds : List Char)
    (hsub : ∀ x ∈ lit, x ∈ markerChars) (hd : d ∉ markerChars)
    (h : litMatch lit cs = none) : litMatch lit (cs ++ d :: ds) = none := by
  induction lit generalizing cs with
  | nil => simp [litMatch] at h
  | cons p ps ih =>
    cases cs with
    | nil =>
      simp only [List.nil_append, litMatch]
      have hp : p ∈ markerChars := hsub p (by simp)
      have : d ≠ p := fun hdp => hd (hdp ▸ hp)
      rw [if_neg this]
    | cons c cs' =>
      simp only [litMatch, List.cons_append] at h ⊢
      by_cases hc : c = p
      · rw [if_pos hc] at h ⊢
        exact ih (fun x hx => hsub x (by simp [hx])) h
      · rw [if_neg hc]

theorem markerMatchAt_append_none {cs : List Char} {d : Char} (ds : List Char)
    (hd : d ∉ markerChars) (hdig : d.isDigit = false)
    (h : markerMatchAt cs = none) : markerMatchAt (cs ++ d :: ds) = none := by
  unfold markerMatchAt at h ⊢
  cases hm : litMatch markerChars cs with
  | none =>
    rw [litMatch_append_none ds (fun x hx => hx) hd hm]
  | some r =>
    rw [hm] at h
    rw [litMatch_append_some (d :: ds) hm]
    cases r with
    | nil =>
      simp only [List.nil_append, List.takeWhile_cons, hdig, Bool.false_eq_true,
        if_false, List.isEmpty_nil, if_true]
    | cons x xs =>
      simp only [List.takeWhile_cons, List.cons_append] at h ⊢
      cases hx : x.isDigit with
      | true => simp [hx] at h
      | false => simp [hx]

theorem findMarker_append {cs : List Char} {d : Char} (ds : List Char)
    (hd : d ∉ markerChars) (hdig : d.isDigit = false)
    (h : findMarker cs = none) :
    findMarker (cs ++ d :: ds) = findMarker (d :: ds) := by
  induction cs with
  | nil => rfl
  | cons c cs' ih =>
    have hsplit : markerMatchAt (c :: cs') = none ∧ findMarker cs' = none := by
      unfold findMarker at h
      cases hm : markerMatchAt (c :: cs') with
      | some r => rw [hm] at h; cases h
      | none => rw [hm] at h; exact ⟨rfl, h⟩
    have hm2 : markerMatchAt (c :: (cs' ++ d :: ds)) = none := by
      have h0 := @markerMatchAt_append_none (c :: cs') d ds hd hdig hsplit.1
      rwa [List.cons_append] at h0
    calc findMarker ((c :: cs') ++ d :: ds)
        = findMarker (c :: (cs' ++ d :: ds)) := by rw [List.cons_append]
      _ = findMarker (cs' ++ d :: ds) := by rw [findMarker, hm2]
      _ = findMarker (d :: ds) := ih hsplit.2

/-- A destination card whose body *ends* in `\n\n#basecamp-id-482` but also
contains an earlier marker occurrence. -/
def c3Card : ScanCard := ⟨some "#basecamp-id-7\n\n#basecamp-id-482", 99⟩

/-- Claim C3 (counterexample): `description.match(/#basecamp-id-(\d+)/)`
returns the *first* occurrence, so for a body ending in
`\n\n#basecamp-id-482` that contains an earlier marker, the scanner maps
source id `7` — not `482` — to the card's number. -/
theorem claim_C3_counterexample :
    c3Card.description = some ("#basecamp-id-7" ++ "\n\n#basecamp-id-482") ∧
    jsGet (findExistingMigratedCards (.ok [c3Card])) "482" = none ∧
    jsGet (findExistingMigratedCards (.ok [c3Card])) "7" = some 99 := by
  refine ⟨by decide, by decide, by decide⟩

/-- Claim C3 (amended): for any destination card body ending in
`\n\n#basecamp-id-482` *whose preceding text contains no earlier occurrence
of the marker pattern* (`findMarker` finds nothing in it), the Duplicate
Scanner recovers source id `482` and maps it to that card's number. -/
theorem claim_C3_marker_extraction (p : String) (c : ScanCard)
    (hp : findMarker p.toList = none)
    (hd : c.description = some (p ++ "\n\n#basecamp-id-482")) :
    jsGet (findExistingMigratedCards (.ok [c])) "482" = some c.number := by
  have hne : ("\n\n#basecamp-id-482" : String) ≠ "" := by decide
  have htruthy : jsTruthyStr (p ++ "\n\n#basecamp-id-482") = true :=
    jsTruthyStr_of_ne (strAppend_ne_empty_right _ _ hne)
  have htail : ("\n\n#basecamp-id-482" : String).toList =
      '\n' :: ("\n#basecamp-id-482" : String).toList := by decide
  have htl : (p ++ "\n\n#basecamp-id-482").toList =
      p.toList ++ '\n' :: ("\n#basecamp-id-482" : String).toList := by
    show (p ++ _).data = _
    rw [String.data_append]
    exact congrArg (p.data ++ ·) htail
  have hfm : findMarker ((p ++ "\n\n#basecamp-id-482").toList) =
      some ['4', '8', '2'] := by
    rw [htl, findMarker_append _ (by decide) (by decide) hp]
    decide
  show jsGet (List.foldl scanCardStep [] [c]) "482" = some c.number
  simp only [List.foldl]
  unfold scanCardStep
  rw [hd]
  simp only [htruthy, Bool.not_true, Bool.false_eq_true, if_false, hfm]
  have hk : String.mk ['4', '8', '2'] = "482" := by decide
  simp [jsSet, jsGet, hk]

theorem claim_C3_witness :
    findMarker ("hello" : String).toList = none ∧
    jsGet
      (findExistingMigratedCards
        (.ok [⟨some ("hello" ++ "\n\n#basecamp-id-482"), 7⟩])) "482" = some 7 :=
  ⟨by decide,
   claim_C3_marker_extraction "hello"
     ⟨some ("hello" ++ "\n\n#basecamp-id-482"), 7⟩ (by decide) rfl⟩

/-! ## Rate limiter lemmas (C6) -/

theorem acquireAt_eq {st : RateLimiterState} {t : Int} {st1 : RateLimiterState}
    (h : acquireAt st t = some st1) :
    st1.rps = st.rps ∧ st1.lastRefill = t ∧
    st1.tokens =
      min (1000 * (st.rps : Int)) (st.tokens + (t - st.lastRefill) * st.rps) - 1000 ∧
    1000 ≤ min (1000 * (st.rps : Int)) (st.tokens + (t - st.lastRefill) * st.rps) := by
  simp only [acquireAt, refill] at h
  by_cases hc : (1000 : Int) ≤
      min (1000 * (st.rps : Int)) (st.tokens + (t - st.lastRefill) * st.rps)
  · rw [if_pos hc] at h
    cases h
    exact ⟨rfl, rfl, rfl, hc⟩
  · rw [if_neg hc] at h
    cases h

theorem runAcquires_potential (B : Int) :
    ∀ {ts : List Int} {st st' : RateLimiterState},
    runAcquires st ts = some st' →
    1000 * (ts.length : Int) + st'.tokens + (st.rps : Int) * (B - st'.lastRefill) ≤
      st.tokens + (st.rps : Int) * (B - st.lastRefill) := by
  intro ts
  induction ts with
  | nil =>
    intro st st' h
    simp only [runAcquires] at h
    cases h
    simp
  | cons t rest ih =>
    intro st st' h
    simp only [runAcquires] at h
    cases ha : acquireAt st t with
    | none => rw [ha] at h; cases h
    | some st1 =>
      rw [ha] at h
      obtain ⟨hrps, hlr, htok, _⟩ := acquireAt_eq ha
      have hpot := ih h
      rw [hrps, hlr] at hpot
      have hmin : st1.tokens ≤ st.tokens + (t - st.lastRefill) * st.rps - 1000 := by
        rw [htok]
        have := min_le_right (1000 * (st.rps : Int))
          (st.tokens + (t - st.lastRefill) * st.rps)
        omega
      have hring : (st.rps : Int) * (B - t) + (t - st.lastRefill) * st.rps =
          (st.rps : Int) * (B - st.lastRefill) := by ring
      simp only [List.length_cons]
      push_cast
      linarith

theorem runAcquires_tokens_nonneg :
    ∀ {ts : List Int} {st st' : RateLimiterState},
    runAcquires st ts = some st' → 0 ≤ st.tokens → 0 ≤ st'.tokens := by
  intro ts
  induction ts with
  | nil =>
    intro st st' h h0
    simp only [runAcquires] at h
    cases h
    exact h0
  | cons t rest ih =>
    intro st st' h h0
    simp only [runAcquires] at h
    cases ha : acquireAt st t with
    | none => rw [ha] at h; cases h
    | some st1 =>
      rw [ha] at h
      obtain ⟨_, _, htok, hsucc⟩ := acquireAt_eq ha
      exact ih h (by omega)

theorem runAcquires_lastRefill :
    ∀ {ts : List Int} {st st' : RateLimiterState},
    runAcquires st ts = some st' →
    st'.lastRefill = st.lastRefill ∨ st'.lastRefill ∈ ts := by
  intro ts
  induction ts with
  | nil =>
    intro st st' h
    simp only [runAcquires] at h
    cases h
    exact .inl rfl
  | cons t rest ih =>
    intro st st' h
    simp only [runAcquires] at h
    cases ha : acquireAt st t with
    | none => rw [ha] at h; cases h
    | some st1 =>
      rw [ha] at h
      obtain ⟨_, hlr, _, _⟩ := acquireAt_eq ha
      rcases ih h with he | hm
      · rw [he, hlr]; exact .inr (by simp)
      · exact .inr (by simp [hm])

/-- Claim C6 (amended): over any window of `W` seconds, the number of
successful acquire completions is at most `rate × W + rate` — the limiter's
burst capacity is a full bucket of `rate` tokens (the constructor sets
`maxTokens = requestsPerSecond`), not the single token the claim allows.
The bound holds from any limiter state, however reached, because the first
refill inside the window caps the bucket at `maxTokens`. -/
theorem claim_C6_window_bound (st : RateLimiterState) (A : Int) (W : Nat)
    (ts : List Int) (st' : RateLimiterState)
    (hrun : runAcquires st ts = some st')
    (hwin : ∀ t ∈ ts, A ≤ t ∧ t ≤ A + 1000 * W) :
    ts.length ≤ st.rps * W + st.rps := by
  cases ts with
  | nil => simp
  | cons t rest =>
    simp only [runAcquires] at hrun
    cases ha : acquireAt st t with
    | none => rw [ha] at hrun; cases hrun
    | some st1 =>
      rw [ha] at hrun
      obtain ⟨hrps, hlr, htok, hsucc⟩ := acquireAt_eq ha
      have hpot := runAcquires_potential (A + 1000 * W) hrun
      rw [hrps] at hpot
      have hnn : 0 ≤ st'.tokens := runAcquires_tokens_nonneg hrun (by omega)
      have hlrB : st'.lastRefill ≤ A + 1000 * W := by
        rcases runAcquires_lastRefill hrun with he | hm
        · rw [he, hlr]
          exact (hwin t (by simp)).2
        · exact (hwin _ (by simp [hm])).2
      have htA : A ≤ t := (hwin t (by simp)).1
      have hcap : st1.tokens ≤ 1000 * (st.rps : Int) - 1000 := by
        rw [htok]
        have := min_le_left (1000 * (st.rps : Int))
          (st.tokens + (t - st.lastRefill) * st.rps)
        omega
      have h1 : 0 ≤ (st.rps : Int) * (A + 1000 * W - st'.lastRefill) :=
        mul_nonneg (by positivity) (by omega)
      have h2 : (st.rps : Int) * (A + 1000 * W - t) ≤ (st.rps : Int) * (1000 * W) :=
        mul_le_mul_of_nonneg_left (by omega) (by positivity)
      have hz : ((rest.length : Int) + 1) ≤ (st.rps : Int) * W + st.rps := by
        have h3 : (st.rps : Int) * (1000 * W) = 1000 * ((st.rps : Int) * W) := by ring
        nlinarith [hpot, hnn, h1, h2, hcap]
      have : ((t :: rest).length : Int) ≤ ((st.rps * W + st.rps : Nat) : Int) := by
        simp only [List.length_cons]
        push_cast
        push_cast at hz
        linarith
      exact_mod_cast this

/-- Ten completions inside a one-second window at the default rate of 5/s:
a full burst of 5 at t = 0 plus 5 refilled by t = 1000 ms. -/
def c6Trace : List Int := [0, 0, 0, 0, 0, 1000, 1000, 1000, 1000, 1000]

/-- Claim C6 (counterexample): with the default rate 5, ten acquires all
complete within a window of W = 1 second, exceeding the claimed bound
`rate × W + 1 = 6`. -/
theorem claim_C6_counterexample :
    (runAcquires (initRateLimiter 5 0) c6Trace).isSome = true ∧
    (∀ t ∈ c6Trace, 0 ≤ t ∧ t ≤ 0 + 1000 * 1) ∧
    c6Trace.length = 10 ∧
    ¬ (c6Trace.length ≤ 5 * 1 + 1) := by
  refine ⟨by decide, by decide, by decide, by decide⟩

theorem claim_C6_witness :
    runAcquires (initRateLimiter 5 0) [0, 200] = some ⟨5, 4000, 200⟩ ∧
    (∀ t ∈ [(0 : Int), 200], 0 ≤ t ∧ t ≤ 0 + 1000 * 1) ∧
    [(0 : Int), 200].length ≤ (initRateLimiter 5 0).rps * 1 + (initRateLimiter 5 0).rps :=
  ⟨by decide, by decide,
   claim_C6_window_bound (initRateLimiter 5 0) 0 1 [0, 200] ⟨5, 4000, 200⟩
     (by decide) (by decide)⟩

/-! ## Association-map lemmas -/

theorem jsGet_jsSet {α : Type} (m : List (String × α)) (k : String) (v : α)
    (k' : String) :
    jsGet (jsSet m k v) k' = if k = k' then some v else jsGet m k' := by
  induction m with
  | nil => simp [jsSet, jsGet]
  | cons p rest ih =>
    simp only [jsSet]
    by_cases h1 : p.1 = k
    · rw [if_pos h1]
      by_cases h2 : k = k'
      · simp only [jsGet, if_pos h2]
      · simp only [jsGet, if_neg h2]
        have : ¬ p.1 = k' := by rw [h1]; exact h2
        rw [if_neg this]
    · rw [if_neg h1]
      by_cases h2 : p.1 = k'
      · have hkk : ¬ k = k' := by
          intro he
          exact h1 (by rw [he, h2])
        simp only [jsGet, if_pos h2, if_neg hkk]
      · simp only [jsGet, if_neg h2, ih]

theorem mem_jsSet {α : Type} {m : List (String × α)} {k : String} {v : α}
    {kv : String × α} (h : kv ∈ jsSet m k v) : kv = (k, v) ∨ kv ∈ m := by
  induction m with
  | nil =>
    simp only [jsSet, List.mem_singleton] at h
    exact .inl h
  | cons p rest ih =>
    simp only [jsSet] at h
    by_cases hk : p.1 = k
    · rw [if_pos hk] at h
      rcases List.mem_cons.mp h with h1 | h2
      · exact .inl h1
      · exact .inr (List.mem_cons_of_mem _ h2)
    · rw [if_neg hk] at h
      rcases List.mem_cons.mp h with h1 | h2
      · exact .inr (h1 ▸ List.mem_cons_self _ _)
      · rcases ih h2 with h3 | h4
        · exact .inl h3
        · exact .inr (List.mem_cons_of_mem _ h4)

/-! ## Column action properties (C7) -/

/-- The four `FIZZY_ACTIONS` variants. -/
def actionTypes : List String := ["keep_triage", "not_now", "close", "triage_to_column"]

/-- The invariant of every action the Column Mapper stores: it is one of
the four variants, and a `triage_to_column` action carries a target id. -/
def GoodAction (a : ColumnAction) : Prop :=
  a.type ∈ actionTypes ∧ (a.type = "triage_to_column" → a.target.isSome = true)

theorem goodAction_regular (x : String) :
    GoodAction (getColumnAction REGULAR (some x)) := by
  have he : getColumnAction REGULAR (some x) = ⟨"triage_to_column", some x⟩ := rfl
  rw [GoodAction, he]
  exact ⟨by show "triage_to_column" ∈ actionTypes; decide, fun _ => rfl⟩

theorem mapColumnsGo_good (createCol : ColumnPayload → Except JsError FizzyColumn)
    (fzs : List FizzyColumn) (dryRun : Bool) :
    ∀ (bcs : List BColumn) (acc res : MapColumnsResult),
    mapColumnsGo createCol fzs dryRun bcs acc = .ok res →
    (∀ kv ∈ acc.mappings, GoodAction kv.2) →
    ∀ kv ∈ res.mappings, GoodAction kv.2 := by
  intro bcs
  induction bcs with
  | nil =>
    intro acc res h hacc
    simp only [mapColumnsGo] at h
    cases h
    exact hacc
  | cons bc rest ih =>
    intro acc res h hacc
    simp only [mapColumnsGo] at h
    by_cases hsp : detectColumnType bc = TRIAGE ∨ detectColumnType bc = NOT_NOW ∨
        detectColumnType bc = DONE
    · rw [if_pos hsp] at h
      refine ih _ _ h ?_
      intro kv hkv
      rcases mem_jsSet hkv with he | hm
      · rw [he]
        rcases hsp with h1 | h1 | h1
        · rw [h1]; exact (⟨by decide, by decide⟩ : GoodAction ⟨"keep_triage", none⟩)
        · rw [h1]; exact (⟨by decide, by decide⟩ : GoodAction ⟨"not_now", none⟩)
        · rw [h1]; exact (⟨by decide, by decide⟩ : GoodAction ⟨"close", none⟩)
      · exact hacc kv hm
    · rw [if_neg hsp] at h
      cases hf : findMatchingColumn (jsOrStrOpt bc.title bc.name) fzs with
      | some fz =>
        rw [hf] at h
        refine ih _ _ h ?_
        intro kv hkv
        rcases mem_jsSet hkv with he | hm
        · rw [he]; exact goodAction_regular _
        · exact hacc kv hm
      | none =>
        rw [hf] at h
        cases hdry : dryRun with
        | true =>
          rw [hdry] at h ih
          simp only [if_true] at h
          refine ih _ _ h ?_
          intro kv hkv
          rcases mem_jsSet hkv with he | hm
          · rw [he]; exact goodAction_regular _
          · exact hacc kv hm
        | false =>
          rw [hdry] at h ih
          simp only [Bool.false_eq_true, if_false] at h
          cases hc : createCol ⟨jsOrStrOpt bc.title bc.name,
              mapBasecampColorToFizzy bc.color⟩ with
          | error e => rw [hc] at h; cases h
          | ok fz =>
            rw [hc] at h
            refine ih _ _ h ?_
            intro kv hkv
            rcases mem_jsSet hkv with he | hm
            · rw [he]; exact goodAction_regular _
            · exact hacc kv hm

/-- Claim C7: `getColumnAction` returns exactly one of the four
`ColumnAction` variants for every input tag (the JS switch always hits one
branch), and on every successful `mapColumns` run, every stored
`triage_to_column` (PlaceInColumn) action carries a non-null target column
id — a matched, newly created, or dry-run placeholder id. -/
theorem claim_C7_column_actions :
    (∀ (columnType : String) (columnId : Option String),
        (getColumnAction columnType columnId).type ∈ actionTypes) ∧
    (∀ (createCol : ColumnPayload → Except JsError FizzyColumn)
        (bcs : List BColumn) (fzs : List FizzyColumn) (dryRun : Bool)
        (res : MapColumnsResult),
        mapColumns createCol bcs fzs dryRun = .ok res →
        ∀ kv ∈ res.mappings, kv.2.type ∈ actionTypes ∧
          (kv.2.type = "triage_to_column" → kv.2.target.isSome = true)) := by
  constructor
  · intro columnType columnId
    unfold getColumnAction
    split_ifs <;> simp +decide [actionTypes]
  · intro createCol bcs fzs dryRun res h kv hkv
    exact mapColumnsGo_good createCol fzs dryRun bcs ⟨[], [], []⟩ res h
      (by intro kv hkv; cases hkv) kv hkv

/-- A column-creation stub for concrete runs (never invoked in dry-run). -/
def c7Create : ColumnPayload → Except JsError FizzyColumn :=
  fun _ => .error ⟨"unused", none⟩

/-- A Regular source column. -/
def c7Col : BColumn := ⟨42, some "In Progress", none, none, none⟩

/-- The result of the dry-run mapColumns over `[c7Col]` and no existing
destination columns. -/
def c7Res : MapColumnsResult :=
  ⟨[("42", ⟨"triage_to_column", some "dry-run-42"⟩)],
   [⟨42, some "In Progress", some "dry-run-42", some "In Progress",
     ⟨"triage_to_column", some "dry-run-42"⟩⟩],
   []⟩

theorem claim_C7_witness :
    (getColumnAction TRIAGE none).type ∈ actionTypes ∧
    mapColumns c7Create [c7Col] [] true = .ok c7Res ∧
    (("42", (⟨"triage_to_column", some "dry-run-42"⟩ : ColumnAction)).2.type ∈ actionTypes ∧
     (("42", (⟨"triage_to_column", some "dry-run-42"⟩ : ColumnAction)).2.type =
        "triage_to_column" →
      ("42", (⟨"triage_to_column", some "dry-run-42"⟩ : ColumnAction)).2.target.isSome =
        true)) :=
  ⟨claim_C7_column_actions.1 TRIAGE none, rfl,
   claim_C7_column_actions.2 c7Create [c7Col] [] true c7Res rfl
     ("42", ⟨"triage_to_column", some "dry-run-42"⟩) (by decide)⟩

/-! ## Dry-run frame lemmas (C8) -/

theorem jsSet_present_self {α : Type} (m : List (String × α)) (k : String) (v : α) :
    (jsGet (jsSet m k v) k).isSome = true := by
  rw [jsGet_jsSet]
  simp

theorem jsSet_present_mono {α : Type} (m : List (String × α)) (k0 : String) (v : α)
    (k : String) (h : (jsGet m k).isSome = true) :
    (jsGet (jsSet m k0 v) k).isSome = true := by
  rw [jsGet_jsSet]
  by_cases hk : k0 = k <;> simp [hk, h]

theorem mapColumnsGo_dryRun_env (cc cc' : ColumnPayload → Except JsError FizzyColumn)
    (fzs : List FizzyColumn) :
    ∀ (bcs : List BColumn) (acc : MapColumnsResult),
    mapColumnsGo cc fzs true bcs acc = mapColumnsGo cc' fzs true bcs acc := by
  intro bcs
  induction bcs with
  | nil => intro acc; rfl
  | cons bc rest ih =>
    intro acc
    simp only [mapColumnsGo]
    by_cases hsp : detectColumnType bc = TRIAGE ∨ detectColumnType bc = NOT_NOW ∨
        detectColumnType bc = DONE
    · rw [if_pos hsp, if_pos hsp]
      exact ih _
    · rw [if_neg hsp, if_neg hsp]
      cases hf : findMatchingColumn (jsOrStrOpt bc.title bc.name) fzs with
      | some fz => exact ih _
      | none => exact ih _

theorem mapColumnsGo_dryRun_ok (cc : ColumnPayload → Except JsError FizzyColumn)
    (fzs : List FizzyColumn) :
    ∀ (bcs : List BColumn) (acc : MapColumnsResult),
    ∃ res, mapColumnsGo cc fzs true bcs acc = .ok res ∧
      res.created = acc.created ∧
      (∀ k, (jsGet acc.mappings k).isSome = true →
        (jsGet res.mappings k).isSome = true) ∧
      (∀ col ∈ bcs, (jsGet res.mappings (toString col.id)).isSome = true) := by
  intro bcs
  induction bcs with
  | nil =>
    intro acc
    exact ⟨acc, rfl, rfl, fun _ h => h, by intro col hcol; cases hcol⟩
  | cons bc rest ih =>
    intro acc
    simp only [mapColumnsGo]
    by_cases hsp : detectColumnType bc = TRIAGE ∨ detectColumnType bc = NOT_NOW ∨
        detectColumnType bc = DONE
    · rw [if_pos hsp]
      obtain ⟨res, hres, hcr, hmono, hall⟩ := ih _
      refine ⟨res, hres, hcr, ?_, ?_⟩
      · intro k hk
        exact hmono k (jsSet_present_mono _ _ _ _ hk)
      · intro col hcol
        rcases List.mem_cons.mp hcol with he | hm
        · subst he
          exact hmono _ (jsSet_present_self _ _ _)
        · exact hall col hm
    · rw [if_neg hsp]
      cases hf : findMatchingColumn (jsOrStrOpt bc.title bc.name) fzs with
      | some fz =>
        obtain ⟨res, hres, hcr, hmono, hall⟩ := ih _
        refine ⟨res, hres, hcr, ?_, ?_⟩
        · intro k hk
          exact hmono k (jsSet_present_mono _ _ _ _ hk)
        · intro col hcol
          rcases List.mem_cons.mp hcol with he | hm
          · subst he
            exact hmono _ (jsSet_present_self _ _ _)
          · exact hall col hm
      | none =>
        obtain ⟨res, hres, hcr, hmono, hall⟩ := ih _
        refine ⟨res, hres, hcr, ?_, ?_⟩
        · intro k hk
          exact hmono k (jsSet_present_mono _ _ _ _ hk)
        · intro col hcol
          rcases List.mem_cons.mp hcol with he | hm
          · subst he
            exact hmono _ (jsSet_present_self _ _ _)
          · exact hall col hm

/-- Claim C8: in dry-run mode `migrateCard` issues no remote call and
throws nothing; and the Column Mapper's dry-run never consults the
column-creation client (its output is independent of it), always succeeds,
creates nothing, and still produces an action-map entry for every input
column (the placeholder ids keep the map complete). -/
theorem claim_C8_dry_run_frame :
    (∀ (env : MigrationEnv) (opts : MigrateOptions) (st : MigrationState)
        (card : BCard) (now : String), opts.dryRun = true →
        (migrateCard env opts st card now).1 = none ∧
        (migrateCard env opts st card now).2.2 = []) ∧
    (∀ (cc cc' : ColumnPayload → Except JsError FizzyColumn)
        (bcs : List BColumn) (fzs : List FizzyColumn),
        mapColumns cc bcs fzs true = mapColumns cc' bcs fzs true) ∧
    (∀ (cc : ColumnPayload → Except JsError FizzyColumn)
        (bcs : List BColumn) (fzs : List FizzyColumn),
        ∃ res, mapColumns cc bcs fzs true = .ok res ∧ res.created = [] ∧
          ∀ col ∈ bcs, (jsGet res.mappings (toString col.id)).isSome = true) := by
  refine ⟨?_, ?_, ?_⟩
  · intro env opts st card now hdry
    unfold migrateCard
    by_cases hskip : (jsTruthyNat (jsGet st.existing_cards (toString card.id)) &&
        !opts.updateExisting) = true
    · simp [hskip]
    · simp only [Bool.not_eq_true] at hskip
      simp [hskip, hdry]
  · intro cc cc' bcs fzs
    exact mapColumnsGo_dryRun_env cc cc' fzs bcs ⟨[], [], []⟩
  · intro cc bcs fzs
    obtain ⟨res, hres, hcr, _, hall⟩ := mapColumnsGo_dryRun_ok cc fzs bcs ⟨[], [], []⟩
    exact ⟨res, hres, hcr, hall⟩

/-- A column-creation stub that succeeds, to contrast with `c7Create`. -/
def c8Create : ColumnPayload → Except JsError FizzyColumn :=
  fun _ => .ok ⟨"live-1", none, none⟩

theorem claim_C8_witness :
    (⟨false, false, true⟩ : MigrateOptions).dryRun = true ∧
    ((migrateCard failEnv ⟨false, false, true⟩ freshState
        ⟨1, "Card one", none, none, [], [], false, 0⟩ "t0").1 = none ∧
     (migrateCard failEnv ⟨false, false, true⟩ freshState
        ⟨1, "Card one", none, none, [], [], false, 0⟩ "t0").2.2 = []) ∧
    mapColumns c7Create [c7Col] [] true = mapColumns c8Create [c7Col] [] true ∧
    (∃ res, mapColumns c7Create [c7Col] [] true = .ok res ∧ res.created = [] ∧
      ∀ col ∈ [c7Col], (jsGet res.mappings (toString col.id)).isSome = true) :=
  ⟨rfl,
   claim_C8_dry_run_frame.1 failEnv ⟨false, false, true⟩ freshState
     ⟨1, "Card one", none, none, [], [], false, 0⟩ "t0" rfl,
   claim_C8_dry_run_frame.2.1 c7Create c8Create [c7Col] [],
   claim_C8_dry_run_frame.2.2 c7Create [c7Col] []⟩

/-! ## Preservation lemmas for `migrateCard` (C9, C10)

The follow-up loops only append warnings and bump metadata counters; they
never touch `progress`, `failed_items` or `existing_cards`. -/

theorem assignLoop_preserves (env : MigrationEnv) (n : Nat) (now : String) :
    ∀ (ids : List String) (st : MigrationState),
    (assignLoop env n now ids st).1.progress = st.progress ∧
    (assignLoop env n now ids st).1.failed_items = st.failed_items ∧
    (assignLoop env n now ids st).1.existing_cards = st.existing_cards := by
  intro ids
  induction ids with
  | nil => intro st; exact ⟨rfl, rfl, rfl⟩
  | cons uid rest ih =>
    intro st
    cases ha : env.assignUser n uid with
    | ok u =>
      simp only [assignLoop, ha]
      have ihX := ih st
      rcases hAL : assignLoop env n now rest st with ⟨a, b⟩
      rw [hAL] at ihX
      simp only [hAL]
      exact ihX
    | error e =>
      simp only [assignLoop, ha]
      have ihX := ih (addWarning st
        ("Failed to assign user " ++ uid ++ " to card " ++ toString n) e.message now)
      rcases hAL : assignLoop env n now rest (addWarning st
        ("Failed to assign user " ++ uid ++ " to card " ++ toString n)
        e.message now) with ⟨a, b⟩
      rw [hAL] at ihX
      simp only [hAL]
      exact ihX

theorem stepsLoop_preserves (env : MigrationEnv) (n : Nat) (now : String) :
    ∀ (steps : List FizzyStepPayload) (st : MigrationState),
    (stepsLoop env n now steps st).1.progress = st.progress ∧
    (stepsLoop env n now steps st).1.failed_items = st.failed_items ∧
    (stepsLoop env n now steps st).1.existing_cards = st.existing_cards := by
  intro steps
  induction steps with
  | nil => intro st; exact ⟨rfl, rfl, rfl⟩
  | cons s rest ih =>
    intro st
    cases ha : env.createStep n s with
    | ok u =>
      simp only [stepsLoop, ha]
      have ihX := ih { st with metadata :=
        { st.metadata with steps_migrated := st.metadata.steps_migrated + 1 } }
      rcases hAL : stepsLoop env n now rest { st with metadata :=
        { st.metadata with steps_migrated := st.metadata.steps_migrated + 1 } }
        with ⟨a, b⟩
      rw [hAL] at ihX
      simp only [hAL]
      exact ihX
    | error e =>
      simp only [stepsLoop, ha]
      have ihX := ih (addWarning st
        ("Failed to create step for card " ++ toString n) e.message now)
      rcases hAL : stepsLoop env n now rest (addWarning st
        ("Failed to create step for card " ++ toString n) e.message now) with ⟨a, b⟩
      rw [hAL] at ihX
      simp only [hAL]
      exact ihX

theorem commentsLoop_preserves (env : MigrationEnv) (n : Nat) (now : String)
    (um : List (String × UserMapping)) :
    ∀ (cs : List BComment) (st : MigrationState),
    (commentsLoop env n now um cs st).1.progress = st.progress ∧
    (commentsLoop env n now um cs st).1.failed_items = st.failed_items ∧
    (commentsLoop env n now um cs st).1.existing_cards = st.existing_cards := by
  intro cs
  induction cs with
  | nil => intro st; exact ⟨rfl, rfl, rfl⟩
  | cons c rest ih =>
    intro st
    cases ha : env.createComment n (mapComment env.fmtDate c um) with
    | ok u =>
      simp only [commentsLoop, ha]
      have ihX := ih { st with metadata :=
        { st.metadata with comments_migrated := st.metadata.comments_migrated + 1 } }
      rcases hAL : commentsLoop env n now um rest { st with metadata :=
        { st.metadata with comments_migrated := st.metadata.comments_migrated + 1 } }
        with ⟨a, b⟩
      rw [hAL] at ihX
      simp only [hAL]
      exact ihX
    | error e =>
      simp only [commentsLoop, ha]
      have ihX := ih (addWarning st
        ("Failed to migrate comment for card " ++ toString n) e.message now)
      rcases hAL : commentsLoop env n now um rest (addWarning st
        ("Failed to migrate comment for card " ++ toString n) e.message now)
        with ⟨a, b⟩
      rw [hAL] at ihX
      simp only [hAL]
      exact ihX

theorem migrateCommentsForCard_preserves (env : MigrationEnv) (card : BCard)
    (n : Nat) (now : String) (st : MigrationState) :
    (migrateCommentsForCard env card n now st).1.progress = st.progress ∧
    (migrateCommentsForCard env card n now st).1.failed_items = st.failed_items ∧
    (migrateCommentsForCard env card n now st).1.existing_cards = st.existing_cards := by
  cases hg : env.getComments card.id with
  | error e => simp only [migrateCommentsForCard, hg]; exact ⟨rfl, rfl, rfl⟩
  | ok comments =>
    simp only [migrateCommentsForCard, hg]
    have h := commentsLoop_preserves env n now st.user_mappings comments st
    rcases hAL : commentsLoop env n now st.user_mappings comments st with ⟨a, b⟩
    rw [hAL] at h
    simp only [hAL]
    exact h

theorem unmappedWarnLoop_preserves (cid : Nat) (now : String) :
    ∀ (l : List UnmappedAssignee) (st : MigrationState),
    (unmappedWarnLoop cid now l st).progress = st.progress ∧
    (unmappedWarnLoop cid now l st).failed_items = st.failed_items ∧
    (unmappedWarnLoop cid now l st).existing_cards = st.existing_cards := by
  intro l
  induction l with
  | nil => intro st; exact ⟨rfl, rfl, rfl⟩
  | cons a rest ih =>
    intro st
    simp only [unmappedWarnLoop]
    exact ih _

theorem migrateCardRest_preserves (env : MigrationEnv) (opts : MigrateOptions)
    (card : BCard) (mapped : MappedCard) (fizzyCard : CreatedCard) (now : String)
    (st : MigrationState) :
    (migrateCardRest env opts card mapped fizzyCard now st).2.1.progress = st.progress ∧
    (migrateCardRest env opts card mapped fizzyCard now st).2.1.failed_items =
      st.failed_items ∧
    (migrateCardRest env opts card mapped fizzyCard now st).2.1.existing_cards =
      st.existing_cards := by
  rcases hp : placeCardInColumn env fizzyCard.number mapped.metadata.column_action
    with ⟨perr, pcalls⟩
  simp only [migrateCardRest, hp]
  cases perr with
  | some e => exact ⟨rfl, rfl, rfl⟩
  | none =>
    have hA := assignLoop_preserves env fizzyCard.number now
      mapped.metadata.assignee_ids st
    rcases hAL : assignLoop env fizzyCard.number now mapped.metadata.assignee_ids st
      with ⟨st1, acalls⟩
    rw [hAL] at hA
    simp only [hAL]
    have hS := stepsLoop_preserves env fizzyCard.number now mapped.metadata.steps st1
    rcases hSL : stepsLoop env fizzyCard.number now mapped.metadata.steps st1
      with ⟨st2, scalls⟩
    rw [hSL] at hS
    simp only [hSL]
    have h12 : st2.progress = st.progress ∧ st2.failed_items = st.failed_items ∧
        st2.existing_cards = st.existing_cards := by
      exact ⟨hS.1.trans hA.1, hS.2.1.trans hA.2.1, hS.2.2.trans hA.2.2⟩
    cases hcomp : mapped.metadata.completed with
    | true =>
      simp only [hcomp, if_true]
      cases hc : env.closeCard fizzyCard.number with
      | error e => exact h12
      | ok u =>
        have hM :
            (if opts.migrateComments ∧ 0 < mapped.metadata.comments_count then
              migrateCommentsForCard env card fizzyCard.number now st2
            else (st2, [])).1.progress = st2.progress ∧
            (if opts.migrateComments ∧ 0 < mapped.metadata.comments_count then
              migrateCommentsForCard env card fizzyCard.number now st2
            else (st2, [])).1.failed_items = st2.failed_items ∧
            (if opts.migrateComments ∧ 0 < mapped.metadata.comments_count then
              migrateCommentsForCard env card fizzyCard.number now st2
            else (st2, [])).1.existing_cards = st2.existing_cards := by
          by_cases hcm : opts.migrateComments ∧ 0 < mapped.metadata.comments_count
          · simp only [if_pos hcm]
            exact migrateCommentsForCard_preserves env card fizzyCard.number now st2
          · simp [if_neg hcm]
        rcases hML : (if opts.migrateComments ∧ 0 < mapped.metadata.comments_count then
            migrateCommentsForCard env card fizzyCard.number now st2
          else (st2, [])) with ⟨st3, mcalls⟩
        rw [hML] at hM
        simp only [hML]
        have hU := unmappedWarnLoop_preserves card.id now
          mapped.metadata.unmapped_assignees st3
        refine ⟨?_, ?_, ?_⟩
        · exact hU.1.trans (hM.1.trans h12.1)
        · exact hU.2.1.trans (hM.2.1.trans h12.2.1)
        · exact hU.2.2.trans (hM.2.2.trans h12.2.2)
    | false =>
      simp only [hcomp, Bool.false_eq_true, if_false]
      have hM :
          (if opts.migrateComments ∧ 0 < mapped.metadata.comments_count then
            migrateCommentsForCard env card fizzyCard.number now st2
          else (st2, [])).1.progress = st2.progress ∧
          (if opts.migrateComments ∧ 0 < mapped.metadata.comments_count then
            migrateCommentsForCard env card fizzyCard.number now st2
          else (st2, [])).1.failed_items = st2.failed_items ∧
          (if opts.migrateComments ∧ 0 < mapped.metadata.comments_count then
            migrateCommentsForCard env card fizzyCard.number now st2
          else (st2, [])).1.existing_cards = st2.existing_cards := by
        by_cases hcm : opts.migrateComments ∧ 0 < mapped.metadata.comments_count
        · simp only [if_pos hcm]
          exact migrateCommentsForCard_preserves env card fizzyCard.number now st2
        · simp [if_neg hcm]
      rcases hML : (if opts.migrateComments ∧ 0 < mapped.metadata.comments_count then
          migrateCommentsForCard env card fizzyCard.number now st2
        else (st2, [])) with ⟨st3, mcalls⟩
      rw [hML] at hM
      simp only [hML]
      have hU := unmappedWarnLoop_preserves card.id now
        mapped.metadata.unmapped_assignees st3
      refine ⟨?_, ?_, ?_⟩
      · exact hU.1.trans (hM.1.trans h12.1)
      · exact hU.2.1.trans (hM.2.1.trans h12.2.1)
      · exact hU.2.2.trans (hM.2.2.trans h12.2.2)

theorem migrateCard_preserves (env : MigrationEnv) (opts : MigrateOptions)
    (st : MigrationState) (card : BCard) (now : String) :
    (migrateCard env opts st card now).2.1.failed_items = st.failed_items ∧
    (migrateCard env opts st card now).2.1.progress.failed_cards =
      st.progress.failed_cards ∧
    (migrateCard env opts st card now).2.1.progress.processed_cards =
      st.progress.processed_cards ∧
    (migrateCard env opts st card now).2.1.progress.successful_cards =
      st.progress.successful_cards := by
  unfold migrateCard
  by_cases hskip : (jsTruthyNat (jsGet st.existing_cards (toString card.id)) &&
      !opts.updateExisting) = true
  · simp [hskip]
  · rw [Bool.not_eq_true] at hskip
    simp only [hskip, Bool.false_eq_true, if_false]
    by_cases hdry : opts.dryRun = true
    · simp [hdry]
    · rw [Bool.not_eq_true] at hdry
      simp only [hdry, Bool.false_eq_true, if_false]
      cases hc : env.createCard (mapCard card st.user_mappings st.column_mappings).card with
      | error e => exact ⟨rfl, rfl, rfl, rfl⟩
      | ok fc =>
        have hR := migrateCardRest_preserves env opts card
          (mapCard card st.user_mappings st.column_mappings) fc now
          { st with
            existing_cards := jsSet st.existing_cards (toString card.id) fc.number }
        rcases hRL : migrateCardRest env opts card
            (mapCard card st.user_mappings st.column_mappings) fc now
            { st with
              existing_cards := jsSet st.existing_cards (toString card.id) fc.number }
          with ⟨err2, st2, calls2⟩
        rw [hRL] at hR
        simp only [hRL]
        exact ⟨hR.2.1, by rw [hR.1], by rw [hR.1], by rw [hR.1]⟩

theorem migrateCard_existing_after_create (env : MigrationEnv) (opts : MigrateOptions)
    (st : MigrationState) (card : BCard) (now : String) (fc : CreatedCard)
    (hskip : (jsTruthyNat (jsGet st.existing_cards (toString card.id)) &&
      !opts.updateExisting) = false)
    (hdry : opts.dryRun = false)
    (hcreate : env.createCard (mapCard card st.user_mappings st.column_mappings).card
      = .ok fc) :
    jsGet (migrateCard env opts st card now).2.1.existing_cards (toString card.id) =
      some fc.number := by
  unfold migrateCard
  simp only [hskip, hdry, Bool.false_eq_true, if_false, hcreate]
  have hR := migrateCardRest_preserves env opts card
    (mapCard card st.user_mappings st.column_mappings) fc now
    { st with
      existing_cards := jsSet st.existing_cards (toString card.id) fc.number }
  rcases hRL : migrateCardRest env opts card
      (mapCard card st.user_mappings st.column_mappings) fc now
      { st with
        existing_cards := jsSet st.existing_cards (toString card.id) fc.number }
    with ⟨err2, st2, calls2⟩
  rw [hRL] at hR
  simp only [hRL]
  rw [hR.2.2]
  show jsGet (jsSet st.existing_cards (toString card.id) fc.number)
    (toString card.id) = some fc.number
  rw [jsGet_jsSet]
  simp

/-! ## Per-record failure isolation (C9) -/

theorem processCard_count (env : MigrationEnv) (opts : MigrateOptions) (now : String)
    (acc : MigrationState × Nat) (card : BCard) :
    (processCard env opts now acc card).2 = acc.2 + 1 := by
  rcases acc with ⟨st, n⟩
  rcases hm : migrateCard env opts st card now with ⟨err, st', calls⟩
  cases err <;> simp [processCard, hm]

theorem processCard_processed (env : MigrationEnv) (opts : MigrateOptions)
    (now : String) (acc : MigrationState × Nat) (card : BCard) :
    (processCard env opts now acc card).1.progress.processed_cards =
      (processCard env opts now acc card).2 := by
  rcases acc with ⟨st, n⟩
  rcases hm : migrateCard env opts st card now with ⟨err, st', calls⟩
  cases err <;> simp [processCard, hm]

theorem processCard_failed_mem (env : MigrationEnv) (opts : MigrateOptions)
    (now : String) (acc : MigrationState × Nat) (card : BCard) (x : FailedItem)
    (hx : x ∈ acc.1.failed_items) :
    x ∈ (processCard env opts now acc card).1.failed_items := by
  rcases acc with ⟨st, n⟩
  rcases hm : migrateCard env opts st card now with ⟨err, st', calls⟩
  have hpres := (migrateCard_preserves env opts st card now).1
  rw [hm] at hpres
  cases err with
  | none =>
    simp only [processCard, hm]
    rw [hpres]
    exact hx
  | some e =>
    simp only [processCard, hm, addFailedItem]
    rw [hpres]
    exact List.mem_append_left _ hx

theorem processCards_count (env : MigrationEnv) (opts : MigrateOptions)
    (now : String) :
    ∀ (cards : List BCard) (acc : MigrationState × Nat),
    (processCards env opts now cards acc).2 = acc.2 + cards.length := by
  intro cards
  induction cards with
  | nil => intro acc; simp [processCards]
  | cons c rest ih =>
    intro acc
    show (processCards env opts now rest (processCard env opts now acc c)).2 = _
    rw [ih (processCard env opts now acc c), processCard_count]
    simp only [List.length_cons]
    omega

theorem processCards_processed (env : MigrationEnv) (opts : MigrateOptions)
    (now : String) :
    ∀ (cards : List BCard) (acc : MigrationState × Nat), cards ≠ [] →
    (processCards env opts now cards acc).1.progress.processed_cards =
      (processCards env opts now cards acc).2 := by
  intro cards
  induction cards with
  | nil => intro acc h; exact absurd rfl h
  | cons c rest ih =>
    intro acc _
    show (processCards env opts now rest (processCard env opts now acc c)).1.progress.processed_cards = _
    cases rest with
    | nil =>
      show (processCard env opts now acc c).1.progress.processed_cards = _
      exact processCard_processed env opts now acc c
    | cons c2 rest2 =>
      exact ih (processCard env opts now acc c) (by simp)

theorem processCards_failed_mem (env : MigrationEnv) (opts : MigrateOptions)
    (now : String) :
    ∀ (cards : List BCard) (acc : MigrationState × Nat) (x : FailedItem),
    x ∈ acc.1.failed_items →
    x ∈ (processCards env opts now cards acc).1.failed_items := by
  intro cards
  induction cards with
  | nil => intro acc x hx; exact hx
  | cons c rest ih =>
    intro acc x hx
    exact ih (processCard env opts now acc c) x
      (processCard_failed_mem env opts now acc c x hx)

/-- Claim C9: in the RecordMigration phase, a record whose `migrateCard`
throws is recorded as a FailedItem (kind `card`, source id, title, error
message, timestamp), `failed_cards` and the processed counter are bumped,
and every record of the phase is still processed — the phase never aborts
on a single record's exception. Here `l₁` are the records processed before
the failing record `c` and `l₂` those after it. -/
theorem claim_C9_failure_isolation (env : MigrationEnv) (opts : MigrateOptions)
    (now : String) (st0 : MigrationState) (n0 : Nat) (l₁ l₂ : List BCard)
    (c : BCard) (e : JsError) (st' : MigrationState) (calls : List FizzyCall)
    (herr : migrateCard env opts (processCards env opts now l₁ (st0, n0)).1 c now
      = (some e, st', calls)) :
    mkFailedItem "card" c e.message now ∈
      (processCards env opts now (l₁ ++ c :: l₂) (st0, n0)).1.failed_items ∧
    (processCard env opts now (processCards env opts now l₁ (st0, n0)) c).1.failed_items
      = (processCards env opts now l₁ (st0, n0)).1.failed_items ++
          [mkFailedItem "card" c e.message now] ∧
    (processCard env opts now (processCards env opts now l₁ (st0, n0)) c).1.progress.failed_cards
      = (processCards env opts now l₁ (st0, n0)).1.progress.failed_cards + 1 ∧
    (processCards env opts now (l₁ ++ c :: l₂) (st0, n0)).2 =
      n0 + l₁.length + 1 + l₂.length ∧
    (processCards env opts now (l₁ ++ c :: l₂) (st0, n0)).1.progress.processed_cards =
      n0 + l₁.length + 1 + l₂.length := by
  have hsplit : processCards env opts now (l₁ ++ c :: l₂) (st0, n0) =
      processCards env opts now l₂
        (processCard env opts now (processCards env opts now l₁ (st0, n0)) c) := by
    unfold processCards
    rw [List.foldl_append, List.foldl_cons]
  have hpres := migrateCard_preserves env opts
    (processCards env opts now l₁ (st0, n0)).1 c now
  rw [herr] at hpres
  have hfi : (processCard env opts now (processCards env opts now l₁ (st0, n0)) c).1.failed_items
      = (processCards env opts now l₁ (st0, n0)).1.failed_items ++
          [mkFailedItem "card" c e.message now] := by
    rcases hmid : processCards env opts now l₁ (st0, n0) with ⟨stm, nm⟩
    rw [hmid] at herr hpres
    simp only [processCard, herr, addFailedItem]
    rw [hpres.1]
  have hfc : (processCard env opts now (processCards env opts now l₁ (st0, n0)) c).1.progress.failed_cards
      = (processCards env opts now l₁ (st0, n0)).1.progress.failed_cards + 1 := by
    rcases hmid : processCards env opts now l₁ (st0, n0) with ⟨stm, nm⟩
    rw [hmid] at herr hpres
    simp only [processCard, herr, addFailedItem]
    rw [hpres.2.1]
  refine ⟨?_, hfi, hfc, ?_, ?_⟩
  · rw [hsplit]
    apply processCards_failed_mem
    rw [hfi]
    exact List.mem_append_right _ (by simp)
  · rw [processCards_count]
    simp only [List.length_append, List.length_cons]
    omega
  · rw [processCards_processed env opts now _ _ (by simp), processCards_count]
    simp only [List.length_append, List.length_cons]
    omega

def c9Opts : MigrateOptions := ⟨false, false, false⟩

def c9CardA : BCard := ⟨1, "Card A", none, none, [], [], false, 0⟩

def c9CardB : BCard := ⟨2, "Card B", none, none, [], [], false, 0⟩

theorem claim_C9_witness :
    migrateCard failEnv c9Opts
        (processCards failEnv c9Opts "t0" [] (freshState, 0)).1 c9CardA "t0"
      = (some ⟨"unavailable", none⟩, freshState, [.create]) ∧
    (mkFailedItem "card" c9CardA "unavailable" "t0" ∈
      (processCards failEnv c9Opts "t0" ([] ++ c9CardA :: [c9CardB])
        (freshState, 0)).1.failed_items) ∧
    (processCards failEnv c9Opts "t0" ([] ++ c9CardA :: [c9CardB])
        (freshState, 0)).2 = 2 := by
  have h := claim_C9_failure_isolation failEnv c9Opts "t0" freshState 0 [] [c9CardB]
    c9CardA ⟨"unavailable", none⟩ freshState [.create] rfl
  exact ⟨rfl, h.1, h.2.2.2.1⟩

/-! ## Existing-entry durability (C10) -/

theorem migrateCard_skip (env : MigrationEnv) (opts : MigrateOptions)
    (s : MigrationState) (card : BCard) (now : String)
    (hcond : (jsTruthyNat (jsGet s.existing_cards (toString card.id)) &&
      !opts.updateExisting) = true) :
    migrateCard env opts s card now =
      (none,
       { s with progress :=
          { s.progress with skipped_cards := s.progress.skipped_cards + 1 } },
       []) := by
  unfold migrateCard
  simp only [hcond, if_true]

/-- Claim C10: once the destination-creation call succeeds, the mapping
`source_id → destination card number` is written into `existing_cards`
before any follow-up call, and it survives any follow-up exception (the
returned — possibly error-carrying — state always holds it); consequently a
later pass over the same record within the run skips it (no remote calls,
`skipped_cards` incremented) instead of creating a second destination
record, provided the update-existing option is off. -/
theorem claim_C10_existing_entry_durable (env : MigrationEnv)
    (opts : MigrateOptions) (st : MigrationState) (card : BCard) (now : String)
    (fc : CreatedCard)
    (hskip : (jsTruthyNat (jsGet st.existing_cards (toString card.id)) &&
      !opts.updateExisting) = false)
    (hdry : opts.dryRun = false)
    (hcreate : env.createCard (mapCard card st.user_mappings st.column_mappings).card
      = .ok fc) :
    jsGet (migrateCard env opts st card now).2.1.existing_cards (toString card.id) =
      some fc.number ∧
    (fc.number ≠ 0 → opts.updateExisting = false → ∀ now₂ : String,
      (migrateCard env opts (migrateCard env opts st card now).2.1 card now₂).1 =
        none ∧
      (migrateCard env opts (migrateCard env opts st card now).2.1 card now₂).2.2 =
        [] ∧
      (migrateCard env opts (migrateCard env opts st card now).2.1 card
          now₂).2.1.progress.skipped_cards =
        (migrateCard env opts st card now).2.1.progress.skipped_cards + 1) := by
  have h1 := migrateCard_existing_after_create env opts st card now fc hskip hdry
    hcreate
  refine ⟨h1, ?_⟩
  intro hnz hupd now₂
  have hcond : (jsTruthyNat
      (jsGet (migrateCard env opts st card now).2.1.existing_cards
        (toString card.id)) && !opts.updateExisting) = true := by
    rw [h1, hupd]
    simp [jsTruthyNat, hnz]
  rw [migrateCard_skip env opts _ card now₂ hcond]
  exact ⟨rfl, rfl, rfl⟩

/-- An environment whose card creation succeeds with card number 9. -/
def c10Env : MigrationEnv :=
  { failEnv with createCard := fun _ => .ok ⟨9⟩ }

theorem claim_C10_witness :
    ((jsTruthyNat (jsGet freshState.existing_cards (toString c9CardA.id)) &&
       !c9Opts.updateExisting) = false) ∧
    c9Opts.dryRun = false ∧
    c10Env.createCard
      (mapCard c9CardA freshState.user_mappings freshState.column_mappings).card
      = .ok ⟨9⟩ ∧
    jsGet (migrateCard c10Env c9Opts freshState c9CardA "t0").2.1.existing_cards
      (toString c9CardA.id) = some (9 : Nat) :=
  ⟨rfl, rfl, rfl,
   (claim_C10_existing_entry_durable c10Env c9Opts freshState c9CardA "t0" ⟨9⟩
     rfl rfl rfl).1⟩
